import Mathlib

/-!
Shallow embedding of the life-agent conversation core: the plugin dispatch
mechanism (`plugin_manager.py`), the conversation orchestrator
(`agent_core.py`), the plugin key/value store (`plugin.py`), the user table
(`database.py`), the intent/summarization fallbacks (`ai_brain.py`), and the
financial plugin message routing (`plugins/basic_financial.py`).

External effects (the LLM API, datetime clock, database commit success) are
supplied as explicit parameters; machine behaviour (Python truthiness, list
slicing, stable sorting, substring tests) is translated faithfully.
-/

namespace LifeAgent

/-- Outcome of a Python call that may raise: either a value or an exception. -/
inductive PyResult (α : Type) where
  | ok (val : α)
  | exn
deriving DecidableEq

/-- Python truthiness of an `Optional[str]`: `None` and `""` are falsy. -/
def pyTruthy : Option String → Bool
  | none => false
  | some s => !(s == "")

/-- One entry of the in-memory `conversation_context['history']` list:
a dict with `role`, `content` and `timestamp` keys (`agent_core.py`). -/
structure HistEntry where
  role : String
  content : String
  timestamp : Nat
deriving DecidableEq

/-- A persisted `Conversation` row (`models.py`): user id, message text,
response text, timestamp. -/
structure ConversationRow where
  user_id : Nat
  message : String
  response : String
  timestamp : Nat
deriving DecidableEq

/-- A persisted `Memory` row (`models.py`), restricted to the fields the
orchestrator writes: user id, category, content, creation time. -/
structure MemoryRow where
  user_id : Nat
  category : String
  content : String
  created_at : Nat
deriving DecidableEq

/-- A persisted `User` row (`models.py`), restricted to the fields
`get_or_create_user` reads and writes. -/
structure UserRow where
  id : Nat
  telegram_id : String
  username : Option String
  first_name : Option String
  last_name : Option String
deriving DecidableEq

/-- Stable insertion of a conversation row into a list sorted by
descending timestamp: models the `ORDER BY timestamp DESC` of the query in
`_load_conversation_context`. -/
def insertTsDesc (c : ConversationRow) : List ConversationRow → List ConversationRow
  | [] => [c]
  | d :: l => if d.timestamp ≤ c.timestamp then c :: d :: l else d :: insertTsDesc c l

/-- Sort conversation rows by descending timestamp (the SQL ordering of
`_load_conversation_context`). -/
def sortTsDesc : List ConversationRow → List ConversationRow
  | [] => []
  | c :: l => insertTsDesc c (sortTsDesc l)

/-- `AgentCore._load_conversation_context` (`agent_core.py` lines 75-102):
query the user's conversations ordered by timestamp descending, limited to
`max_context_messages`, then build the history as the list comprehension of
all `user` entries over `reversed(recent_convos)` concatenated with the list
comprehension of all `assistant` entries over `reversed(recent_convos)`. -/
def loadConversationHistory (convos : List ConversationRow) (uid maxMsgs : Nat) :
    List HistEntry :=
  let recent := (sortTsDesc (convos.filter (fun c => c.user_id == uid))).take maxMsgs
  (recent.reverse.map fun c => ⟨"user", c.message, c.timestamp⟩)
    ++ (recent.reverse.map fun c => ⟨"assistant", c.response, c.timestamp⟩)

/-- Spec-side definition, written from the spec invariant: the history is the
chronological order (oldest first) of the user's persisted turns, truncated
to the window, with user and assistant entries alternating per turn. -/
def chronologicalHistory (convos : List ConversationRow) (uid maxMsgs : Nat) :
    List HistEntry :=
  let recent := ((sortTsDesc (convos.filter (fun c => c.user_id == uid))).take maxMsgs).reverse
  (recent.map fun c =>
    [(⟨"user", c.message, c.timestamp⟩ : HistEntry), ⟨"assistant", c.response, c.timestamp⟩]).flatten

/-- Python list slice `l[-k:]`: the last `k` elements, except that `k = 0`
gives `l[-0:] = l[0:]`, the whole list. -/
def pySliceLast (k : Nat) (l : List α) : List α :=
  if k = 0 then l else l.drop (l.length - k)

/-- `AgentCore._update_context` (`agent_core.py` lines 193-208): append the
user entry then the assistant entry, then if the history is longer than
`max_context_messages * 2`, keep `history[-max_context_messages * 2:]`. -/
def updateContext (maxMsgs : Nat) (hist : List HistEntry) (message response : String)
    (t : Nat) : List HistEntry :=
  let h2 := hist ++ [⟨"user", message, t⟩, ⟨"assistant", response, t⟩]
  if maxMsgs * 2 < h2.length then pySliceLast (maxMsgs * 2) h2 else h2

/-- Concrete store for claim C1: one user with two persisted turns,
timestamps 1 and 2. -/
def c1Convos : List ConversationRow :=
  [⟨1, "m1", "r1", 1⟩, ⟨1, "m2", "r2", 2⟩]

/-- The conversation context dict passed to handlers: the current user (if
any) and the history list (`conversation_context` in `agent_core.py`). -/
structure Ctx where
  user : Option Nat
  history : List HistEntry
deriving DecidableEq

/-- A loaded plugin as the registry sees it: its static `priority` and its
`can_handle` / `handle` methods, each of which may raise. -/
structure PHandler where
  priority : Int
  canHandle : String → Ctx → PyResult Bool
  handle : String → Ctx → PyResult (Option String)

/-- `PluginManager.route_message` (`plugin_manager.py` lines 109-131): walk
the (priority-sorted) plugins in order; for each whose `can_handle` returns
true, call `handle` inside a try block; a truthy response is returned, a
falsy response or an exception from `handle` moves on to the next plugin.
The `can_handle` call itself is OUTSIDE the try block, so an exception
there propagates. If no plugin responds, return `None`. -/
def route_message : List PHandler → String → Ctx → PyResult (Option String)
  | [], _, _ => .ok none
  | p :: ps, message, ctx =>
    match p.canHandle message ctx with
    | .exn => .exn
    | .ok false => route_message ps message ctx
    | .ok true =>
      match p.handle message ctx with
      | .exn => route_message ps message ctx
      | .ok r => if pyTruthy r then .ok r else route_message ps message ctx

/-- Stable insertion by an integer key: the new element goes before the
first existing element of greater-or-equal key. -/
def insertByKey (key : α → Int) (a : α) : List α → List α
  | [] => [a]
  | b :: l => if key a ≤ key b then a :: b :: l else b :: insertByKey key a l

/-- Stable sort by an integer key: models Python
`sorted(self.plugins.items(), key=lambda x: x[1].priority)` from
`PluginManager.load_plugins` (`plugin_manager.py` lines 101-105), which is
a stable ascending sort. -/
def sortByKey (key : α → Int) : List α → List α
  | [] => []
  | a :: l => insertByKey key a (sortByKey key l)

/-- A handler whose `can_handle` / `handle` never raise (the setting of the
dispatch-order claim, which is about responses, not exceptions). -/
structure PureHandler where
  priority : Int
  canHandle : String → Ctx → Bool
  handle : String → Ctx → Option String

/-- View a non-raising handler as a registry handler. -/
def PureHandler.toPH (p : PureHandler) : PHandler :=
  ⟨p.priority, fun m c => .ok (p.canHandle m c), fun m c => .ok (p.handle m c)⟩

/-- A handler response counted as non-empty under Python truthiness. -/
def pyStr (r : Option String) : Option String :=
  if pyTruthy r then r else none

/-- Spec-side definition, written from the spec of `dispatch`: iterate the
priority-sorted handlers; the result is the first non-empty response among
handlers whose `canHandle` is true (continuing past null/empty responses),
and null when no handler produces a non-empty response. -/
def dispatchSpec (ps : List PureHandler) (message : String) (ctx : Ctx) : Option String :=
  (ps.filterMap fun p =>
    if p.canHandle message ctx then pyStr (p.handle message ctx) else none).head?

/-- A handler whose `can_handle` raises, for the C3 counterexample. -/
def raisingCanHandle : PHandler :=
  ⟨10, fun _ _ => .exn, fun _ _ => .ok (some "x")⟩

/-- A handler whose `handle` raises after claiming the message. -/
def raisingHandle : PHandler :=
  ⟨10, fun _ _ => .ok true, fun _ _ => .exn⟩

/-- A persisted `PluginData` row (`models.py`), restricted to the fields
`store_data` / `load_data` touch; the JSON value is a type parameter. -/
structure PluginDataRow (α : Type) where
  user_id : Nat
  plugin_name : String
  data_key : String
  data_value : α
deriving DecidableEq

/-- The filter of `Plugin.store_data` / `Plugin.load_data` (`plugin.py`):
`plugin_name == self.name`, `data_key == key`, `user_id == current_user_id`. -/
def pdMatch (h : String) (uid : Nat) (k : String) (r : PluginDataRow α) : Bool :=
  r.plugin_name == h && r.data_key == k && r.user_id == uid

/-- `Plugin.store_data` (`plugin.py` lines 114-138): if a row for the
(handler name, user, key) triple exists, overwrite its value in place;
otherwise append a new row. -/
def store_data : List (PluginDataRow α) → String → Nat → String → α → List (PluginDataRow α)
  | [], h, uid, k, v => [⟨uid, h, k, v⟩]
  | r :: rs, h, uid, k, v =>
    if pdMatch h uid k r then { r with data_value := v } :: rs
    else r :: store_data rs h uid k v

/-- `Plugin.load_data` (`plugin.py` lines 140-152): the value of the first
row matching the (handler name, user, key) triple, else `None`. -/
def load_data : List (PluginDataRow α) → String → Nat → String → Option α
  | [], _, _, _ => none
  | r :: rs, h, uid, k =>
    if pdMatch h uid k r then some r.data_value else load_data rs h uid k

/-- `get_or_create_user` (`database.py` lines 44-72): look up the user by
external transport id; if absent, insert a new row (primary key drawn from
the autoincrement counter) and return it, else return the existing row
unchanged (profile arguments are ignored for an existing user). Returns the
user row, the updated table, and the updated autoincrement counter. -/
def get_or_create_user (users : List UserRow) (nextId : Nat) (tid : String)
    (username first_name last_name : Option String) :
    UserRow × List UserRow × Nat :=
  match users.find? (fun u => u.telegram_id == tid) with
  | some u => (u, users, nextId)
  | none =>
    let u : UserRow := ⟨nextId, tid, username, first_name, last_name⟩
    (u, users ++ [u], nextId + 1)

/-- `AIBrain.analyze_intent`'s parsed classification (`ai_brain.py`):
primary intent, action type, entity list, urgency, requires-context flag. -/
structure IntentResult where
  primary_intent : String
  action_type : String
  entities : List String
  urgency : String
  requires_context : Bool
deriving DecidableEq

/-- The fixed default classification returned by `analyze_intent` on any
failure (`ai_brain.py` lines 122-130). -/
def defaultIntent : IntentResult :=
  ⟨"general", "query", [], "medium", false⟩

/-- The markdown-fence cleanup applied to the model output before JSON
parsing (`ai_brain.py` lines 116-118): strip, remove the code fences,
strip again. -/
def cleanJsonFences (s : String) : String :=
  (((s.trim).replace "```json\n" "").replace "```" "").trim

/-- `AIBrain.analyze_intent` (`ai_brain.py` lines 86-130): issue the LLM
call and JSON-parse the cleaned output; any exception in either step is
caught and replaced by the fixed default classification. The LLM call and
the JSON parser are supplied as parameters. -/
def analyze_intent (llmRes : PyResult String)
    (parseJson : String → PyResult IntentResult) : IntentResult :=
  match llmRes with
  | .exn => defaultIntent
  | .ok s =>
    match parseJson (cleanJsonFences s) with
    | .exn => defaultIntent
    | .ok i => i

/-- `AIBrain.summarize_conversation` (`ai_brain.py` lines 161-172): strip
the model output, or return the fixed fallback string when the call
raises. -/
def summarize_conversation (llmRes : PyResult String) : String :=
  match llmRes with
  | .ok s => s.trim
  | .exn => "Unable to summarize conversation."

/-- `AIBrain.think` (`ai_brain.py` lines 72-84): return the model output,
or a fixed apology string when the call raises; never raises. -/
def ai_think (llmRes : PyResult String) : String :=
  match llmRes with
  | .ok s => s
  | .exn => "I apologize, I\x27m having trouble processing that right now. Please try again."

/-- External effects of one `process_message` call, supplied explicitly:
the LLM calls (intent classification, free-form generation, summarization),
the JSON parser, whether the two database commits succeed, and the clock. -/
structure OrchestratorEnv where
  intentLLM : PyResult String
  parseJson : String → PyResult IntentResult
  thinkLLM : PyResult String
  summLLM : PyResult String
  convoCommitOk : Bool
  memoryCommitOk : Bool
  now : Nat

/-- The mutable state of `AgentCore`: current user, user table, in-memory
conversation context history, and the persisted conversation/memory rows. -/
structure AgentState where
  current_user_id : Option Nat
  users : List UserRow
  nextUserId : Nat
  history : List HistEntry
  convos : List ConversationRow
  memories : List MemoryRow
  maxContextMessages : Nat

/-- `AgentCore.set_user` (`agent_core.py` lines 65-73): resolve or create
the user, record its id as the current user, and rebuild the conversation
context from the persisted rows. -/
def set_user (st : AgentState) (tid : String)
    (username first_name last_name : Option String) : AgentState :=
  let r := get_or_create_user st.users st.nextUserId tid username first_name last_name
  { st with
    users := r.2.1
    nextUserId := r.2.2
    current_user_id := some r.1.id
    history := loadConversationHistory st.convos r.1.id st.maxContextMessages }

/-- `AgentCore._extract_memory` (`agent_core.py` lines 169-191): summarize
the turn (the summarizer itself falls back to a fixed string on LLM
failure), store a `Memory` row only when the summary is longer than 20
characters, and swallow a failing commit. Never raises. -/
def extract_memory (env : OrchestratorEnv) (uid : Nat) (mems : List MemoryRow) :
    List MemoryRow :=
  let summary := summarize_conversation env.summLLM
  if 20 < summary.length then
    if env.memoryCommitOk then mems ++ [⟨uid, "general", summary, env.now⟩] else mems
  else mems

/-- `AgentCore.process_message` (`agent_core.py` lines 104-155): with no
current user, return the guidance string. Otherwise run, inside a single
try block: intent analysis, plugin dispatch, fallback generation,
conversation persistence, optional memory extraction, context update; any
exception escaping a step (a raising `can_handle` during dispatch, a
failing conversation commit) is converted to the fixed error string. -/
def process_message (env : OrchestratorEnv) (plugins : List PHandler)
    (st : AgentState) (message : String) : String × AgentState :=
  match st.current_user_id with
  | none => ("Please set user context first", st)
  | some uid =>
    let intent := analyze_intent env.intentLLM env.parseJson
    match route_message plugins message ⟨st.current_user_id, st.history⟩ with
    | .exn => ("I encountered an error processing that. Please try again.", st)
    | .ok pluginResponse =>
      let response :=
        if pyTruthy pluginResponse then pluginResponse.getD ""
        else ai_think env.thinkLLM
      if env.convoCommitOk then
        let st1 :=
          { st with
            convos := st.convos ++ [(⟨uid, message, response, env.now⟩ : ConversationRow)] }
        let st2 :=
          if intent.requires_context then
            { st1 with memories := extract_memory env uid st1.memories }
          else st1
        let st3 :=
          { st2 with
            history := updateContext st.maxContextMessages st2.history message response env.now }
        (response, st3)
      else
        ("I encountered an error processing that. Please try again.", st)

/-- A state with no active user. -/
def stNoUser : AgentState := ⟨none, [], 0, [], [], [], 100⟩

/-- A state with user 1 active. -/
def stUser1 : AgentState := ⟨some 1, [], 0, [], [], [], 100⟩

/-- An environment whose conversation commit fails. -/
def envCommitFail : OrchestratorEnv :=
  ⟨.ok "", fun _ => .exn, .ok "ok", .ok "s", false, true, 0⟩

/-- An environment whose summarization call raises but whose intent
classification flags the turn as requiring context. -/
def envSummFail : OrchestratorEnv :=
  ⟨.ok "x", fun _ => .ok ⟨"general", "query", [], "medium", true⟩, .ok "resp",
    .exn, true, true, 9⟩

/-- Does `hay` start with `needle`? -/
def listStarts : List Char → List Char → Bool
  | [], _ => true
  | _ :: _, [] => false
  | a :: ns, b :: hs => a == b && listStarts ns hs

/-- Is `needle` a contiguous run of `hay`? -/
def listHasInfix (needle : List Char) : List Char → Bool
  | [] => needle.isEmpty
  | b :: hs => listStarts needle (b :: hs) || listHasInfix needle hs

/-- Python substring test `needle in hay`. -/
def pyIn (needle hay : String) : Bool :=
  listHasInfix needle.toList hay.toList

/-- Python `str.lower()` (the texts involved are ASCII). -/
def pyLower (s : String) : String :=
  ⟨s.data.map Char.toLower⟩

/-- `any(word in hay for word in ws)`. -/
def anyIn (ws : List String) (hay : String) : Bool :=
  ws.any fun w => pyIn w hay

/-- The trigger keywords of `BasicFinancialPlugin`
(`plugins/basic_financial.py` lines 21-25). -/
def financialKeywords : List String :=
  ["spent", "spend", "cost", "price", "bought",
   "paid", "expense", "income", "earned", "budget",
   "money", "dollars", "$", "financial", "transaction"]

/-- `BasicFinancialPlugin.can_handle` (`basic_financial.py` lines 35-38):
any trigger keyword is a substring of the lowercased message. -/
def finCanHandle (message : String) : Bool :=
  anyIn financialKeywords (pyLower message)

/-- A persisted `FinancialTransaction` row (`models.py`), restricted to the
fields the plugin writes; dollar amounts are modelled in cents. -/
structure FinTx where
  user_id : Nat
  amountCents : Int
  category : String
  description : String
  transaction_date : Int
deriving DecidableEq

/-- The structured-extraction result of `_extract_transaction_details`
(`basic_financial.py`): optional amount (cents), category, description. -/
structure FinDetails where
  amount : Option Int
  category : Option String
  description : Option String
deriving DecidableEq

inductive TxType where
  | expense
  | income
deriving DecidableEq

/-- External effects of the financial plugin: the LLM extraction result,
the report time range and its formatted period (datetime-dependent), the
formatted summary of a non-empty report (pure formatting, abstracted), the
budget texts (read from plugin data, abstracted), the budget status line
appended by `_check_category_budget`, and the clock. -/
structure FinEnv where
  extractRes : PyResult FinDetails
  rangeStart : Int
  rangeEnd : Int
  periodText : String
  reportBody : List FinTx → String
  setBudgetText : String
  checkBudgetText : String
  budgetStatus : Option String
  now : Int

/-- Python `abs` on an integer. -/
def pyAbs (x : Int) : Int :=
  if x < 0 then -x else x

/-- `f"{v:.2f}"` for a non-negative cent amount: dollars, a dot, two cent
digits. -/
def fmtCents (c : Int) : String :=
  let a := c.toNat
  toString (a / 100) ++ "." ++ (if a % 100 < 10 then "0" else "") ++ toString (a % 100)

/-- The category-to-emoji table of `_get_category_emoji`
(`basic_financial.py` lines 294-307). -/
def categoryEmojis : List (String × String) :=
  [("food", "🍔"), ("transportation", "🚗"), ("entertainment", "🎬"),
   ("shopping", "🛍️"), ("utilities", "💡"), ("rent", "🏠"),
   ("healthcare", "🏥"), ("income", "💵"), ("other", "📦")]

def categoryEmoji (c : String) : String :=
  (categoryEmojis.lookup c).getD "📦"

/-- `BasicFinancialPlugin._log_transaction` (`basic_financial.py` lines
64-112): extract details (an extraction exception is caught and yields the
apology string); with no amount return the usage hint; otherwise store a
transaction whose amount is `-abs(amount)` for an expense and `abs(amount)`
for income, category defaulting to "other", and return the confirmation
string containing the absolute amount formatted with two decimals. -/
def log_transaction (env : FinEnv) (uid : Nat) (message : String)
    (ttype : TxType) (txs : List FinTx) : String × List FinTx :=
  match env.extractRes with
  | .exn => ("I had trouble logging that transaction. Please try again.", txs)
  | .ok details =>
    match details.amount with
    | none =>
      ("I couldn\x27t determine the amount. Try: \x27I spent $25 on groceries\x27", txs)
    | some amt0 =>
      let amount : Int :=
        match ttype with
        | .expense => -(pyAbs amt0)
        | .income => pyAbs amt0
      let category := details.category.getD "other"
      let tx : FinTx := ⟨uid, amount, category, details.description.getD message, env.now⟩
      let response :=
        "[OK] Logged: $" ++ fmtCents (pyAbs amount) ++ " " ++
          (match ttype with
           | .expense => "spent on " ++ category ++ " " ++ categoryEmoji category
           | .income => "earned " ++ categoryEmoji category) ++
          (match ttype with
           | .expense =>
             if pyTruthy env.budgetStatus then "\n" ++ env.budgetStatus.getD "" else ""
           | .income => "")
      (response, txs ++ [tx])

/-- `BasicFinancialPlugin._generate_report` (`basic_financial.py` lines
134-179): with no transactions of the user in the extracted time range,
return the no-transactions string; the summary formatting for a non-empty
range is abstracted as `env.reportBody`. Reports never write. -/
def generate_report (env : FinEnv) (uid : Nat) (txs : List FinTx) : String :=
  let inRange := txs.filter fun t =>
    t.user_id == uid && (env.rangeStart ≤ t.transaction_date
      && t.transaction_date ≤ env.rangeEnd)
  if inRange.isEmpty then "No transactions found for " ++ env.periodText
  else env.reportBody inRange

/-- Which branch of `BasicFinancialPlugin.handle` fires. -/
inductive FinBranch where
  | report
  | setBudget
  | checkBudget
  | logExpense
  | logIncome
  | noBranch
deriving DecidableEq

/-- The branch cascade of `BasicFinancialPlugin.handle` (`basic_financial.py`
lines 40-62), in source order: the report/query check (whose word list
includes "spent") runs BEFORE the transaction-logging check. -/
def finBranch (message : String) : FinBranch :=
  let ml := pyLower message
  if anyIn ["how much", "spent", "total", "report", "summary"] ml then .report
  else if pyIn "budget" ml then
    if anyIn ["set", "create", "update"] ml then .setBudget else .checkBudget
  else if anyIn ["spent", "paid", "bought", "cost"] ml then .logExpense
  else if anyIn ["earned", "received", "income"] ml then .logIncome
  else .noBranch

/-- `BasicFinancialPlugin.handle`: dispatch on the branch cascade. -/
def finHandle (env : FinEnv) (uid : Nat) (message : String) (txs : List FinTx) :
    Option String × List FinTx :=
  match finBranch message with
  | .report => (some (generate_report env uid txs), txs)
  | .setBudget => (some env.setBudgetText, txs)
  | .checkBudget => (some env.checkBudgetText, txs)
  | .logExpense =>
    let r := log_transaction env uid message .expense txs
    (some r.1, r.2)
  | .logIncome =>
    let r := log_transaction env uid message .income txs
    (some r.1, r.2)
  | .noBranch => (none, txs)

/-- The C4 scenario message. -/
def c4Message : String := "I spent $25 on groceries"

/-- The C4 environment: extraction succeeds with amount $25.00 and category
"food"; the report period formats as "October 2025"; no budgets set. -/
def c4Env : FinEnv :=
  ⟨.ok ⟨some 2500, some "food", some "groceries"⟩, 0, 100, "October 2025",
    fun _ => "", "", "", none, 50⟩

/-- C1: the rebuilt Session Context history is NOT the chronological
user/assistant interleaving of the persisted turns: the code emits all user
entries (oldest first) followed by all assistant entries (oldest first). -/
theorem loadConversationHistory_not_interleaved :
    loadConversationHistory c1Convos 1 100 =
      [⟨"user", "m1", 1⟩, ⟨"user", "m2", 2⟩, ⟨"assistant", "r1", 1⟩, ⟨"assistant", "r2", 2⟩]
    ∧ chronologicalHistory c1Convos 1 100 =
      [⟨"user", "m1", 1⟩, ⟨"assistant", "r1", 1⟩, ⟨"user", "m2", 2⟩, ⟨"assistant", "r2", 2⟩]
    ∧ loadConversationHistory c1Convos 1 100 ≠ chronologicalHistory c1Convos 1 100 := by
  decide

/-- C6 counterexample: with `max_context_messages = 0`, one processed turn
after a context rebuild leaves 2 history entries, exceeding the claimed
bound `2 × maxContextMessages = 0`, because Python `history[-0:]` is the
whole list and the truncation never removes anything. -/
theorem updateContext_zero_window_unbounded :
    (updateContext 0 (loadConversationHistory [] 1 0) "m" "r" 7).length = 2
    ∧ ¬ (updateContext 0 (loadConversationHistory [] 1 0) "m" "r" 7).length ≤ 2 * 0 := by
  decide

theorem length_updateContext (maxMsgs : Nat) (hist : List HistEntry)
    (message response : String) (t : Nat) (hmax : 1 ≤ maxMsgs) :
    (updateContext maxMsgs hist message response t).length ≤ 2 * maxMsgs := by
  unfold updateContext pySliceLast
  by_cases hlen :
      maxMsgs * 2 <
        (hist ++ [(⟨"user", message, t⟩ : HistEntry), ⟨"assistant", response, t⟩]).length
  · rw [if_pos hlen, if_neg (by omega : ¬ maxMsgs * 2 = 0)]
    rw [List.length_drop]
    omega
  · rw [if_neg hlen]
    omega

theorem length_loadConversationHistory (convos : List ConversationRow)
    (uid maxMsgs : Nat) :
    (loadConversationHistory convos uid maxMsgs).length ≤ 2 * maxMsgs := by
  unfold loadConversationHistory
  have htake :
      ((sortTsDesc (convos.filter (fun c => c.user_id == uid))).take maxMsgs).length
        ≤ maxMsgs := by
    exact List.length_take_le maxMsgs (sortTsDesc (convos.filter (fun c => c.user_id == uid)))
  simp only [List.length_append, List.length_map, List.length_reverse]
  omega

theorem length_foldl_updateContext (maxMsgs : Nat) (hmax : 1 ≤ maxMsgs)
    (turns : List (String × String × Nat)) (hist : List HistEntry)
    (hh : hist.length ≤ 2 * maxMsgs) :
    (turns.foldl (fun h t => updateContext maxMsgs h t.1 t.2.1 t.2.2) hist).length
      ≤ 2 * maxMsgs := by
  induction turns generalizing hist with
  | nil => simpa using hh
  | cons t ts ih =>
    simp only [List.foldl_cons]
    exact ih _ (length_updateContext maxMsgs hist t.1 t.2.1 t.2.2 hmax)

/-- C6 (amended): for a configured window `maxContextMessages ≥ 1`, the
Session Context history length never exceeds `2 × maxContextMessages` after
a context rebuild followed by any number of processed turns. -/
theorem context_history_bounded (maxMsgs : Nat) (convos : List ConversationRow)
    (uid : Nat) (turns : List (String × String × Nat)) (hmax : 1 ≤ maxMsgs) :
    (turns.foldl (fun h t => updateContext maxMsgs h t.1 t.2.1 t.2.2)
        (loadConversationHistory convos uid maxMsgs)).length ≤ 2 * maxMsgs := by
  exact length_foldl_updateContext maxMsgs hmax turns _
    (length_loadConversationHistory convos uid maxMsgs)

/-- Witness for `context_history_bounded` at window 1 with two turns. -/
theorem context_history_bounded_witness :
    1 ≤ 1 ∧
    (([("a", "b", 1), ("c", "d", 2)] :
        List (String × String × Nat)).foldl
        (fun h t => updateContext 1 h t.1 t.2.1 t.2.2)
        (loadConversationHistory [] 5 1)).length ≤ 2 * 1 :=
  ⟨by decide, context_history_bounded 1 [] 5 [("a", "b", 1), ("c", "d", 2)] (by decide)⟩

theorem mem_insertByKey (key : α → Int) (a x : α) (l : List α)
    (hx : x ∈ insertByKey key a l) : x = a ∨ x ∈ l := by
  induction l with
  | nil =>
    simp only [insertByKey, List.mem_singleton] at hx
    exact Or.inl hx
  | cons b l ih =>
    simp only [insertByKey] at hx
    by_cases hab : key a ≤ key b
    · rw [if_pos hab] at hx
      rcases List.mem_cons.mp hx with h | h
      · exact Or.inl h
      · exact Or.inr h
    · rw [if_neg hab] at hx
      rcases List.mem_cons.mp hx with h | h
      · exact Or.inr (h ▸ List.mem_cons_self b l)
      · rcases ih h with h2 | h2
        · exact Or.inl h2
        · exact Or.inr (List.mem_cons_of_mem b h2)

theorem pairwise_insertByKey (key : α → Int) (a : α) (l : List α)
    (h : l.Pairwise fun x y => key x ≤ key y) :
    (insertByKey key a l).Pairwise fun x y => key x ≤ key y := by
  induction l with
  | nil => simp [insertByKey]
  | cons b l ih =>
    rcases List.pairwise_cons.mp h with ⟨hb, hl⟩
    simp only [insertByKey]
    by_cases hab : key a ≤ key b
    · rw [if_pos hab]
      refine List.pairwise_cons.mpr ⟨?_, h⟩
      intro y hy
      rcases List.mem_cons.mp hy with rfl | hyl
      · exact hab
      · exact le_trans hab (hb y hyl)
    · rw [if_neg hab]
      refine List.pairwise_cons.mpr ⟨?_, ih hl⟩
      intro y hy
      rcases mem_insertByKey key a y l hy with rfl | hyl
      · exact le_of_lt (lt_of_not_le hab)
      · exact hb y hyl

theorem pairwise_sortByKey (key : α → Int) (l : List α) :
    (sortByKey key l).Pairwise fun x y => key x ≤ key y := by
  induction l with
  | nil => simp [sortByKey]
  | cons a l ih => exact pairwise_insertByKey key a (sortByKey key l) ih

theorem filter_insertByKey (key : α → Int) (q : Int) (a : α) (l : List α) :
    (insertByKey key a l).filter (fun x => key x == q) =
      if key a == q then a :: l.filter (fun x => key x == q)
      else l.filter (fun x => key x == q) := by
  induction l with
  | nil =>
    by_cases haq : key a = q
    · simp [insertByKey, List.filter_cons, haq]
    · simp [insertByKey, List.filter_cons, haq]
  | cons b l ih =>
    simp only [insertByKey]
    by_cases hab : key a ≤ key b
    · rw [if_pos hab]
      by_cases haq : key a = q
      · simp [List.filter_cons, haq]
      · simp [List.filter_cons, haq]
    · rw [if_neg hab]
      have hba : key b < key a := lt_of_not_le hab
      by_cases haq : key a = q
      · have hbq : ¬ key b = q := by omega
        simp [List.filter_cons, hbq, ih, haq]
      · simp [List.filter_cons, ih, haq]

theorem filter_sortByKey (key : α → Int) (q : Int) (l : List α) :
    (sortByKey key l).filter (fun x => key x == q) =
      l.filter (fun x => key x == q) := by
  induction l with
  | nil => rfl
  | cons a l ih =>
    rw [sortByKey, filter_insertByKey, ih]
    by_cases haq : key a = q
    · simp [List.filter_cons, haq]
    · simp [List.filter_cons, haq]

theorem route_message_eq_dispatchSpec (l : List PureHandler) (message : String)
    (ctx : Ctx) :
    route_message (l.map PureHandler.toPH) message ctx =
      .ok (dispatchSpec l message ctx) := by
  induction l with
  | nil => rfl
  | cons p l ih =>
    by_cases hc : p.canHandle message ctx
    · cases hr : p.handle message ctx with
      | none =>
        simp only [dispatchSpec] at ih ⊢
        simp [route_message, PureHandler.toPH, List.filterMap_cons, hc, hr,
          pyStr, pyTruthy, ih]
      | some s =>
        by_cases hs : s = ""
        · subst hs
          simp only [dispatchSpec] at ih ⊢
          simp [route_message, PureHandler.toPH, List.filterMap_cons, hc, hr,
            pyStr, pyTruthy, ih]
        · simp only [dispatchSpec] at ih ⊢
          simp [route_message, PureHandler.toPH, List.filterMap_cons, hc, hr,
            pyStr, pyTruthy, hs, ih]
    · simp only [Bool.not_eq_true] at hc
      simp only [dispatchSpec] at ih ⊢
      simp [route_message, PureHandler.toPH, List.filterMap_cons, hc, ih]

/-- C2: loading sorts the registered handlers ascending by priority with a
stable sort (equal-priority handlers keep registration order), and dispatch
over the sorted handlers returns the first non-empty response: a handler
whose `canHandle` is true but whose `handle` returns null or an empty
string is skipped, and dispatch returns null when no handler produces a
non-empty response. -/
theorem dispatch_first_nonempty_in_priority_order (ps : List PureHandler)
    (message : String) (ctx : Ctx) :
    ((sortByKey PureHandler.priority ps).Pairwise fun a b => a.priority ≤ b.priority)
    ∧ (∀ q : Int,
        (sortByKey PureHandler.priority ps).filter (fun h => h.priority == q) =
          ps.filter (fun h => h.priority == q))
    ∧ route_message ((sortByKey PureHandler.priority ps).map PureHandler.toPH) message ctx =
        .ok (dispatchSpec (sortByKey PureHandler.priority ps) message ctx) :=
  ⟨pairwise_sortByKey PureHandler.priority ps,
   fun q => filter_sortByKey PureHandler.priority q ps,
   route_message_eq_dispatchSpec (sortByKey PureHandler.priority ps) message ctx⟩

/-- C3 counterexample: an exception inside `can_handle` is NOT caught by
`route_message` — it propagates out of dispatch. -/
theorem route_message_canHandle_exception_escapes :
    route_message [raisingCanHandle] "hello" ⟨none, []⟩ = .exn := rfl

/-- C3 (amended): an exception raised inside `handle` is caught and dispatch
continues with the remaining handlers, but an exception raised inside
`can_handle` propagates out of `route_message`. -/
theorem route_message_exception_semantics (p : PHandler) (ps : List PHandler)
    (message : String) (ctx : Ctx) :
    (p.canHandle message ctx = .exn → route_message (p :: ps) message ctx = .exn)
    ∧ (p.canHandle message ctx = .ok true → p.handle message ctx = .exn →
        route_message (p :: ps) message ctx = route_message ps message ctx) := by
  constructor
  · intro h
    simp [route_message, h]
  · intro hc hh
    simp [route_message, hc, hh]

/-- Witness for `route_message_exception_semantics` at concrete handlers. -/
theorem route_message_exception_semantics_witness :
    route_message [raisingCanHandle] "m" ⟨none, []⟩ = .exn
    ∧ route_message [raisingHandle] "m" ⟨none, []⟩ = route_message [] "m" ⟨none, []⟩ :=
  ⟨(route_message_exception_semantics raisingCanHandle [] "m" ⟨none, []⟩).1 rfl,
   (route_message_exception_semantics raisingHandle [] "m" ⟨none, []⟩).2 rfl rfl⟩

theorem load_store_same (tbl : List (PluginDataRow α)) (h : String) (uid : Nat)
    (k : String) (v : α) :
    load_data (store_data tbl h uid k v) h uid k = some v := by
  induction tbl with
  | nil => simp [store_data, load_data, pdMatch]
  | cons r rs ih =>
    by_cases hm : pdMatch h uid k r
    · have hm2 : pdMatch h uid k ({ r with data_value := v } : PluginDataRow α) := by
        simpa [pdMatch] using hm
      simp [store_data, load_data, hm, hm2]
    · simp [store_data, load_data, hm, ih]

theorem load_store_other (tbl : List (PluginDataRow α)) (h h2 : String)
    (uid uid2 : Nat) (k k2 : String) (v : α)
    (hne : h2 ≠ h ∨ uid2 ≠ uid ∨ k2 ≠ k) :
    load_data (store_data tbl h2 uid2 k2 v) h uid k = load_data tbl h uid k := by
  induction tbl with
  | nil =>
    have : pdMatch h uid k (⟨uid2, h2, k2, v⟩ : PluginDataRow α) = false := by
      simp only [pdMatch, Bool.and_eq_false_iff]
      rcases hne with hne | hne | hne
      · exact Or.inl (Or.inl (by simp [hne]))
      · exact Or.inr (by simp [hne])
      · exact Or.inl (Or.inr (by simp [hne]))
    simp [store_data, load_data, this]
  | cons r rs ih =>
    by_cases hm : pdMatch h2 uid2 k2 r
    · have hmeq := hm
      simp only [pdMatch, Bool.and_eq_true, beq_iff_eq] at hmeq
      obtain ⟨⟨hp, hk⟩, hu⟩ := hmeq
      have hrf : pdMatch h uid k r = false := by
        rcases hne with hne | hne | hne
        · simp [pdMatch, hp, hne]
        · simp [pdMatch, hu, hne]
        · simp [pdMatch, hk, hne]
      have hm2f : pdMatch h uid k ({ r with data_value := v } : PluginDataRow α)
          = false := by
        simpa [pdMatch] using hrf
      simp only [store_data, if_pos hm, load_data, hm2f, hrf,
        Bool.false_eq_true, if_false]
    · simp only [store_data, if_neg hm, load_data]
      by_cases hr : pdMatch h uid k r
      · simp [hr]
      · simp [hr, ih]

theorem load_absent (tbl : List (PluginDataRow α)) (h : String) (uid : Nat)
    (k : String) (habs : ∀ r ∈ tbl, pdMatch h uid k r = false) :
    load_data tbl h uid k = none := by
  induction tbl with
  | nil => rfl
  | cons r rs ih =>
    have hr := habs r (List.mem_cons_self r rs)
    simp only [load_data, hr, Bool.false_eq_true, if_false]
    exact ih (fun x hx => habs x (List.mem_cons_of_mem r hx))

/-- C7: the `storeData`/`loadData` round-trip — loading a key just stored
for the same handler and user returns exactly the stored value; a store
under a different (handler, user, key) triple leaves the load unchanged;
and loading a triple for which no row exists returns null. -/
theorem store_load_roundtrip (α : Type) (tbl : List (PluginDataRow α))
    (h h2 : String) (uid uid2 : Nat) (k k2 : String) (v : α) :
    load_data (store_data tbl h uid k v) h uid k = some v
    ∧ ((h2 ≠ h ∨ uid2 ≠ uid ∨ k2 ≠ k) →
        load_data (store_data tbl h2 uid2 k2 v) h uid k = load_data tbl h uid k)
    ∧ ((∀ r ∈ tbl, pdMatch h uid k r = false) → load_data tbl h uid k = none) :=
  ⟨load_store_same tbl h uid k v,
   fun hne => load_store_other tbl h h2 uid uid2 k k2 v hne,
   fun habs => load_absent tbl h uid k habs⟩

/-- Witness for `store_load_roundtrip` on a concrete table. -/
theorem store_load_roundtrip_witness :
    load_data (store_data ([] : List (PluginDataRow Nat)) "fin" 1 "budgets" 5) "fin" 1 "budgets"
      = some 5
    ∧ load_data (store_data ([] : List (PluginDataRow Nat)) "cal" 2 "budgets" 7) "fin" 1 "budgets"
      = load_data ([] : List (PluginDataRow Nat)) "fin" 1 "budgets"
    ∧ load_data ([] : List (PluginDataRow Nat)) "fin" 1 "budgets" = none :=
  ⟨(store_load_roundtrip Nat [] "fin" "cal" 1 2 "budgets" "budgets" 5).1,
   (store_load_roundtrip Nat [] "fin" "cal" 1 2 "budgets" "budgets" 7).2.1
     (Or.inl (by decide)),
   (store_load_roundtrip Nat [] "fin" "cal" 1 2 "budgets" "budgets" 5).2.2
     (by intro r hr; cases hr)⟩

theorem find?_append_none {p : α → Bool} {l1 l2 : List α}
    (h : l1.find? p = none) : (l1 ++ l2).find? p = l2.find? p := by
  induction l1 with
  | nil => rfl
  | cons a l ih =>
    cases hp : p a with
    | true =>
      rw [List.find?_cons_of_pos _ hp] at h
      exact absurd h (by simp)
    | false =>
      have hp2 : ¬ p a = true := by simp [hp]
      rw [List.find?_cons_of_neg _ hp2] at h
      rw [List.cons_append, List.find?_cons_of_neg _ hp2]
      exact ih h

/-- C9: `setUser` is idempotent on user creation — a second call with the
same external id resolves to the same internal user id, leaves the user
table unchanged, and the table holds exactly one row for a fresh external
id (no duplicate is created). -/
theorem get_or_create_user_idempotent (users : List UserRow) (nextId : Nat)
    (tid : String) (a b c a2 b2 c2 : Option String) :
    (get_or_create_user (get_or_create_user users nextId tid a b c).2.1
        (get_or_create_user users nextId tid a b c).2.2 tid a2 b2 c2).1.id
      = (get_or_create_user users nextId tid a b c).1.id
    ∧ (get_or_create_user (get_or_create_user users nextId tid a b c).2.1
        (get_or_create_user users nextId tid a b c).2.2 tid a2 b2 c2).2.1
      = (get_or_create_user users nextId tid a b c).2.1
    ∧ ((get_or_create_user users nextId tid a b c).2.1.filter
        (fun u => u.telegram_id == tid)).length
      = max (users.filter (fun u => u.telegram_id == tid)).length 1 := by
  cases hfind : users.find? (fun u => u.telegram_id == tid) with
  | some u =>
    have hmem := List.mem_of_find?_eq_some hfind
    have hprop := List.find?_some hfind
    have hpos : 0 < (users.filter (fun u => u.telegram_id == tid)).length := by
      have : u ∈ users.filter (fun u => u.telegram_id == tid) :=
        List.mem_filter.mpr ⟨hmem, hprop⟩
      exact List.length_pos.mpr (List.ne_nil_of_mem this)
    refine ⟨?_, ?_, ?_⟩
    · simp [get_or_create_user, hfind]
    · simp [get_or_create_user, hfind]
    · simp only [get_or_create_user, hfind]
      omega
  | none =>
    have hfilter : users.filter (fun u => u.telegram_id == tid) = [] := by
      rw [List.filter_eq_nil_iff]
      intro u hu
      exact List.find?_eq_none.mp hfind u hu
    have hnew : ((⟨nextId, tid, a, b, c⟩ : UserRow).telegram_id == tid) = true := by
      simp
    have hfind2 :
        (users ++ [(⟨nextId, tid, a, b, c⟩ : UserRow)]).find?
          (fun u => u.telegram_id == tid) = some ⟨nextId, tid, a, b, c⟩ := by
      rw [find?_append_none hfind, List.find?_cons, hnew]
    refine ⟨?_, ?_, ?_⟩
    · simp [get_or_create_user, hfind, hfind2]
    · simp [get_or_create_user, hfind, hfind2]
    · simp only [get_or_create_user, hfind]
      rw [List.filter_append, hfilter, List.nil_append, List.filter_cons, hnew]
      simp

/-- C8: when the structured-extraction call throws, or returns output the
JSON parser rejects, `analyze_intent` returns the fixed default
classification (`general`/`query`/empty entities/`medium`/false) instead of
raising. -/
theorem analyze_intent_failure_default (llmRes : PyResult String)
    (parseJson : String → PyResult IntentResult) :
    (llmRes = .exn → analyze_intent llmRes parseJson = defaultIntent)
    ∧ (∀ s, llmRes = .ok s → parseJson (cleanJsonFences s) = .exn →
        analyze_intent llmRes parseJson = defaultIntent)
    ∧ defaultIntent = ⟨"general", "query", [], "medium", false⟩ := by
  refine ⟨?_, ?_, rfl⟩
  · intro h
    rw [h]
    rfl
  · intro s hs hp
    rw [hs]
    simp [analyze_intent, hp]

/-- Witness for `analyze_intent_failure_default`: a raising LLM call and an
unparseable output both yield the default classification. -/
theorem analyze_intent_failure_default_witness :
    analyze_intent .exn (fun _ => .ok defaultIntent) = defaultIntent
    ∧ analyze_intent (.ok "not json") (fun _ => .exn) = defaultIntent :=
  ⟨(analyze_intent_failure_default .exn (fun _ => .ok defaultIntent)).1 rfl,
   (analyze_intent_failure_default (.ok "not json") (fun _ => .exn)).2.1
     "not json" rfl rfl⟩

/-- C9: `setUser` is idempotent on user creation — a second call with the
same external id resolves the same internal user id, leaves the user table
unchanged, and after the first call the table holds exactly one row for a
fresh external id (no duplicate is created). -/
theorem set_user_idempotent (st : AgentState) (tid : String)
    (a b c a2 b2 c2 : Option String) :
    (set_user (set_user st tid a b c) tid a2 b2 c2).current_user_id
      = (set_user st tid a b c).current_user_id
    ∧ (set_user (set_user st tid a b c) tid a2 b2 c2).users
      = (set_user st tid a b c).users
    ∧ ((set_user st tid a b c).users.filter (fun u => u.telegram_id == tid)).length
      = max (st.users.filter (fun u => u.telegram_id == tid)).length 1 := by
  have h2 := get_or_create_user_idempotent st.users st.nextUserId tid a b c a2 b2 c2
  refine ⟨?_, ?_, ?_⟩
  · simp only [set_user]
    exact congrArg some h2.1
  · simp only [set_user]
    exact h2.2.1
  · simp only [set_user]
    exact h2.2.2

/-- C5: `process_message` never surfaces an exception — with no active user
it returns the guidance string, and an exception escaping any processing
step (a raising `can_handle` in dispatch, a failing conversation commit) is
converted to the fixed user-facing error string. -/
theorem process_message_never_raises (env : OrchestratorEnv)
    (plugins : List PHandler) (st : AgentState) (message : String) :
    (st.current_user_id = none →
      process_message env plugins st message = ("Please set user context first", st))
    ∧ (st.current_user_id ≠ none →
        route_message plugins message ⟨st.current_user_id, st.history⟩ = .exn →
        (process_message env plugins st message).1 =
          "I encountered an error processing that. Please try again.")
    ∧ (st.current_user_id ≠ none → env.convoCommitOk = false →
        (process_message env plugins st message).1 =
          "I encountered an error processing that. Please try again.") := by
  refine ⟨?_, ?_, ?_⟩
  · intro h
    simp [process_message, h]
  · intro hu hr
    cases hcu : st.current_user_id with
    | none => exact absurd hcu hu
    | some uid =>
      rw [hcu] at hr
      simp [process_message, hcu, hr]
  · intro hu hcommit
    cases hcu : st.current_user_id with
    | none => exact absurd hcu hu
    | some uid =>
      cases hroute : route_message plugins message ⟨some uid, st.history⟩ with
      | exn => simp [process_message, hcu, hroute]
      | ok pr => simp [process_message, hcu, hroute, hcommit]

/-- Witness for `process_message_never_raises` at concrete inputs. -/
theorem process_message_never_raises_witness :
    process_message envCommitFail [] stNoUser "hi" = ("Please set user context first", stNoUser)
    ∧ (process_message envCommitFail [raisingCanHandle] stUser1 "hi").1 =
        "I encountered an error processing that. Please try again."
    ∧ (process_message envCommitFail [] stUser1 "hi").1 =
        "I encountered an error processing that. Please try again." :=
  ⟨(process_message_never_raises envCommitFail [] stNoUser "hi").1 rfl,
   (process_message_never_raises envCommitFail [raisingCanHandle] stUser1 "hi").2.1
     (by simp [stUser1]) rfl,
   (process_message_never_raises envCommitFail [] stUser1 "hi").2.2
     (by simp [stUser1]) rfl⟩

/-- C10: when the turn is flagged as requiring long-term context and the
summarization LLM call fails, the orchestrator still persists a Memory row
whose content is the 33-character fallback string
"Unable to summarize conversation.", which passes the 20-character
threshold. -/
theorem memory_stored_on_summarization_failure (env : OrchestratorEnv)
    (plugins : List PHandler) (st : AgentState) (message : String) (uid : Nat)
    (pr : Option String)
    (hu : st.current_user_id = some uid)
    (hsumm : env.summLLM = .exn)
    (hcommit : env.convoCommitOk = true)
    (hmem : env.memoryCommitOk = true)
    (hreq : (analyze_intent env.intentLLM env.parseJson).requires_context = true)
    (hroute : route_message plugins message ⟨st.current_user_id, st.history⟩ = .ok pr) :
    (process_message env plugins st message).2.memories
      = st.memories ++ [⟨uid, "general", "Unable to summarize conversation.", env.now⟩]
    ∧ 20 < ("Unable to summarize conversation." : String).length := by
  constructor
  · rw [hu] at hroute
    have hlen : 20 < ("Unable to summarize conversation." : String).length := by
      decide
    simp [process_message, hu, hroute, hcommit, hreq, extract_memory, hlen,
      hmem, summarize_conversation, hsumm]
  · decide

/-- Witness for `memory_stored_on_summarization_failure` at concrete
inputs. -/
theorem memory_stored_on_summarization_failure_witness :
    (process_message envSummFail [] stUser1 "hi").2.memories
      = [⟨1, "general", "Unable to summarize conversation.", 9⟩]
    ∧ 20 < ("Unable to summarize conversation." : String).length :=
  memory_stored_on_summarization_failure envSummFail [] stUser1 "hi" 1 none
    rfl rfl rfl rfl rfl rfl

/-- C4: for a fresh user, "I spent $25 on groceries" is claimed by the
financial handler (keyword "spent"), but `handle` takes the REPORT branch
(because "spent" is also in the report word list, checked first): no
transaction is logged and the response is the no-transactions string, which
does not contain "25.00". The final conjunct shows the logging branch the
claim (and the plugin's own help text) describes: had it run, it would have
stored amount -25.00 and returned a confirmation containing "25.00". -/
theorem fin_spent_message_reports_instead_of_logging :
    finCanHandle c4Message = true
    ∧ finBranch c4Message = FinBranch.report
    ∧ finHandle c4Env 1 c4Message [] =
        (some "No transactions found for October 2025", [])
    ∧ pyIn "25.00" "No transactions found for October 2025" = false
    ∧ log_transaction c4Env 1 c4Message TxType.expense [] =
        ("[OK] Logged: $25.00 spent on food 🍔", [⟨1, -2500, "food", "groceries", 50⟩]) := by
  decide

end LifeAgent
